import Mathlib

/-!
Shallow embedding of the playlist-synchronization script
(`create_playlisst.py`): the title normalizer, catalog builder, match
resolver and the synchronizer main loop, with the similarity scorer
(`thefuzz.process.extract`) and the provider services modelled as
injected collaborators, as the specification prescribes.
-/

/-- A track item from a provider playlist: the display title
(`m_svc.song_name(item)`) and the provider-native identifier
(`m_svc.song_id(song)`). -/
structure SongItem where
  title : String
  id : String
deriving DecidableEq, Repr, Inhabited

/-- A provider playlist: its name (`m_svc.playlist_name(playlist)`) and its
item list (`m_svc.playlist_items(playlist["id"])`, pagination handled by the
collaborator). -/
structure Playlist where
  name : String
  items : List SongItem
deriving DecidableEq, Repr, Inhabited

/-- Python substring test `needle in hay` on strings. -/
def pyIn (needle hay : String) : Bool := decide (needle.data <:+: hay.data)

/-- Python `str.lower()`: per-character lowercasing. -/
def py_lower (s : String) : String := String.mk (s.data.map Char.toLower)

/-- Python `str.strip()`: drop leading and trailing whitespace. -/
def py_strip (s : String) : String :=
  String.mk ((s.data.dropWhile Char.isWhitespace).reverse.dropWhile
    Char.isWhitespace).reverse

/-- Python `item.split(sep)[0]` for a non-empty separator: the prefix of the
character sequence before the first occurrence of `sep`. -/
def py_split_head (sep : List Char) : List Char → List Char
  | [] => []
  | c :: cs => if List.isPrefixOf sep (c :: cs) then [] else c :: py_split_head sep cs

/-- The fixed noise-character set of `song_title_cleanup` in
`create_playlisst.py`: parentheses, the typographic right single quote
U+2019, comma, the arrow glyph U+2794, and the ASCII apostrophe. -/
def noiseChars : List Char :=
  ['(', ')', Char.ofNat 0x2019, ',', Char.ofNat 0x2794, Char.ofNat 39]

/-- The `maketrans` table of `song_title_cleanup`: each noise character maps
to the empty replacement string; characters outside the table are kept. -/
def maketrans_table (c : Char) : Option String :=
  if noiseChars.contains c then some "" else none

/-- Python `str.translate`: map each character through the table, splicing in
the replacement when the table binds the character and keeping the character
otherwise. -/
def str_translate (table : Char → Option String) : List Char → List Char
  | [] => []
  | c :: cs =>
    (match table c with
     | some r => r.data
     | none => [c]) ++ str_translate table cs

/-- Source `song_title_cleanup`: `song_title.translate(song_title.maketrans({...}))`
with the six noise characters mapped to the empty string. -/
def song_title_cleanup (song_title : String) : String :=
  String.mk (str_translate maketrans_table song_title.data)

/-- A Python dict from normalized titles to items; insertion order is kept,
keys are unique by construction. -/
abbrev Catalog := List (String × SongItem)

/-- Python dict assignment `d[k] = v`: overwrite in place when the key is
present, otherwise append the new binding. -/
def dictInsert (d : Catalog) (k : String) (v : SongItem) : Catalog :=
  if ∃ p ∈ d, p.1 = k then
    d.map (fun p => if p.1 = k then (k, v) else p)
  else d ++ [(k, v)]

/-- Python dict lookup `d[k]`, made fallible: `none` models a `KeyError`. -/
def dictLookup (d : Catalog) (k : String) : Option SongItem :=
  match d with
  | [] => none
  | p :: rest => if p.1 = k then some p.2 else dictLookup rest k

/-- Source `find_master_playlists`: keep, in order, every playlist whose name
lowercased contains the substring `"master"`. -/
def find_master_playlists (pls : List Playlist) : List Playlist :=
  pls.foldl (fun acc p => if pyIn "master" (py_lower p.name) then acc ++ [p] else acc) []

/-- Source `collect_playlist_items`: flatten the item lists of the given playlists
(`playlist_items.extend(...)`), then build the dict keyed by
`song_title_cleanup` of each item title (a Python dict comprehension,
i.e. repeated `dictInsert` in sequence order). -/
def collect_playlist_items (pls : List Playlist) : Catalog :=
  let playlist_items := pls.foldl (fun acc p => acc ++ p.items) []
  playlist_items.foldl (fun d item => dictInsert d (song_title_cleanup item.title) item) []

/-- Source `get_master_song_list`: the catalog built from the master playlists. -/
def get_master_song_list (pls : List Playlist) : Catalog :=
  collect_playlist_items (find_master_playlists pls)

/-- One line of `read_song_list_from_file`s second comprehension:
drop an optional `" - "`-delimited artist suffix, then clean the title. -/
def parse_line (item : String) : String :=
  song_title_cleanup
    (if pyIn " - " item then String.mk (py_split_head " - ".data item.data) else item)

/-- Source `read_song_list_from_file`, with the file contents passed in as the list
of raw lines: strip each line, drop lines that strip to empty, then apply
`parse_line` to each survivor. -/
def read_song_list_from_file (lines : List String) : List String :=
  let song_list := (lines.filter (fun item => py_strip item != "")).map py_strip
  song_list.map parse_line

/-- The result of `find_matching_song`: a matched item, `None`
(printed as "No matches found"), or a propagated `KeyError` from the
`master_song_list[video_title_match]` lookup. -/
inductive MatchResult where
  | found (item : SongItem)
  | notFound
  | keyError
deriving DecidableEq, Repr

/-- The containment guard of `find_matching_song`:
`song_name.lower() in song_title_cleanup(video_title_match).lower()`. -/
def containment_ok (song_name candidate : String) : Bool :=
  pyIn (py_lower song_name) (py_lower (song_title_cleanup candidate))

/-- The `for match in matches` loop of `find_matching_song`: return the item
bound to the first candidate passing the containment guard, else `None`. -/
def match_loop (song_name : String) (catalog : Catalog) :
    List (String × Nat) → MatchResult
  | [] => .notFound
  | m :: rest =>
    if containment_ok song_name m.1 then
      match dictLookup catalog m.1 with
      | some item => .found item
      | none => .keyError
    else match_loop song_name catalog rest

/-- Source `find_matching_song`, with the scorer output
`process.extract(song_name, master_song_list.keys())` passed in as the
ranked `(candidate, score)` list `matches` (best score first). -/
def find_matching_song (song_name : String) (matchList : List (String × Nat))
    (catalog : Catalog) : MatchResult :=
  if matchList.isEmpty then .notFound
  else match_loop song_name catalog matchList

/-- The per-song loop of `main`: accumulate, in input order, the native id of
every resolved song (skipped when dry-run), count resolved songs, skip
unresolved ones, and propagate a `KeyError` as a run-terminating error. -/
def process_songs (dryRun : Bool) (catalog : Catalog)
    (matchesFor : String → List (String × Nat)) :
    List String → Except Unit (List String × Nat)
  | [] => .ok ([], 0)
  | song_name :: rest =>
    match find_matching_song song_name (matchesFor song_name) catalog with
    | .keyError => .error ()
    | .notFound => process_songs dryRun catalog matchesFor rest
    | .found song =>
      match process_songs dryRun catalog matchesFor rest with
      | .error e => .error e
      | .ok (ids, r) => .ok (if dryRun then ids else song.id :: ids, r + 1)

/-- The observable collaborator calls and report of one run of `main`. -/
structure RunResult where
  findOrCreateCalls : List String
  batchAddCalls : List (Nat × List String)
  resolvedCount : Nat
deriving DecidableEq, Repr

/-- Source `get_playlist`: the playlist id used downstream — the placeholder
`{"id": 1}` in dry-run, otherwise the id returned by
`m_svc.find_or_create_playlist`. -/
def get_playlist_id (dryRun : Bool) (svcId : Nat) : Nat :=
  if dryRun then 1 else svcId

/-- The `find_or_create_playlist` calls `get_playlist` makes: none in
dry-run, exactly one (with the target name) otherwise. -/
def get_playlist_calls (dryRun : Bool) (playlistName : String) : List String :=
  if dryRun then [] else [playlistName]

/-- Source `main` after argument parsing and service initialization: resolve every
song of `song_list` against `catalog`, then call `add_songs_to_playlist`
once with the accumulated ids iff the accumulation list is non-empty. -/
def main_model (dryRun : Bool) (playlistName : String) (svcPlaylistId : Nat)
    (catalog : Catalog) (matchesFor : String → List (String × Nat))
    (song_list : List String) : Except Unit RunResult :=
  match process_songs dryRun catalog matchesFor song_list with
  | .error e => .error e
  | .ok (song_ids, r) =>
    .ok { findOrCreateCalls := get_playlist_calls dryRun playlistName,
          batchAddCalls :=
            if song_ids.isEmpty then []
            else [(get_playlist_id dryRun svcPlaylistId, song_ids)],
          resolvedCount := r }

/-- Total number of ids submitted through `add_songs_to_playlist` in a run. -/
def addedCount (r : RunResult) : Nat :=
  (r.batchAddCalls.map (fun c => c.2.length)).sum

/-! Section: Helper lemmas -/

lemma string_data_ext {s t : String} (h : s.data = t.data) : s = t := by
  cases s
  cases t
  exact congrArg String.mk h

lemma string_mk_data (t : String) : String.mk t.data = t := by
  cases t
  rfl

lemma song_title_cleanup_data (t : String) :
    (song_title_cleanup t).data = t.data.filter (fun c => !(noiseChars.contains c)) := by
  show str_translate maketrans_table t.data = _
  induction t.data with
  | nil => rfl
  | cons c cs ih =>
    by_cases h : c ∈ noiseChars
    · have hm : maketrans_table c = some "" := by simp [maketrans_table, h]
      have hc : (!(noiseChars.contains c)) = false := by simpa using h
      simp only [str_translate, hm, List.filter_cons, hc, if_false]
      simpa using ih
    · have hm : maketrans_table c = none := by simp [maketrans_table, h]
      have hc : (!(noiseChars.contains c)) = true := by simpa using h
      simp only [str_translate, hm, List.filter_cons, hc, if_true]
      simpa using ih

/-! Section: C2 and C3: the normalizer -/

/-- C2: `song_title_cleanup` deletes every occurrence of the six noise
characters and changes nothing else (it is exactly the noise-character
filter on the character sequence); in particular it is the identity on any
title containing no noise character. -/
theorem c2_normalizer_deletion (t : String) :
    song_title_cleanup t = String.mk (t.data.filter (fun c => !(noiseChars.contains c))) ∧
    ((∀ c ∈ t.data, c ∉ noiseChars) → song_title_cleanup t = t) := by
  constructor
  · exact string_data_ext (by simpa using song_title_cleanup_data t)
  · intro h
    apply string_data_ext
    rw [song_title_cleanup_data]
    refine Eq.trans (List.filter_eq_self.mpr ?_) rfl
    intro c hc
    simpa using h c hc

/-- Witness for C2 at the concrete noise-free title "Back In Black". -/
theorem c2_normalizer_deletion_witness :
    song_title_cleanup "Back In Black" = "Back In Black" :=
  (c2_normalizer_deletion "Back In Black").2 (by decide)

/-- C3: the normalizer is idempotent. -/
theorem c3_normalizer_idempotent (t : String) :
    song_title_cleanup (song_title_cleanup t) = song_title_cleanup t := by
  apply string_data_ext
  rw [song_title_cleanup_data, song_title_cleanup_data, List.filter_filter]
  simp

/-! Section: Resolver helper lemmas -/

lemma find_matching_song_eq_loop (needle : String) (ml : List (String × Nat))
    (cat : Catalog) : find_matching_song needle ml cat = match_loop needle cat ml := by
  cases ml with
  | nil => rfl
  | cons m rest => rfl

lemma match_loop_spec (needle : String) (cat : Catalog) (l : List (String × Nat))
    (h : ∀ p ∈ l, (dictLookup cat p.1).isSome = true) :
    match_loop needle cat l =
      match l.find? (fun p => containment_ok needle p.1) with
      | none => MatchResult.notFound
      | some p => MatchResult.found ((dictLookup cat p.1).getD default) := by
  induction l with
  | nil => rfl
  | cons m rest ih =>
    by_cases hc : containment_ok needle m.1
    · obtain ⟨item, hitem⟩ := Option.isSome_iff_exists.mp (h m (by simp))
      rw [List.find?_cons_of_pos rest hc]
      simp [match_loop, hc, hitem]
    · rw [List.find?_cons_of_neg rest (by simpa using hc)]
      have := ih (fun p hp => h p (by simp [hp]))
      simpa [match_loop, hc] using this

/-! Section: C1: resolver walks candidates best-first with containment guard -/

/-- C1: when every scorer candidate is a key of the catalog, the resolver
returns the item bound to the first candidate (in scorer order) whose
normalized form case-insensitively contains the needle as a substring, and
"not found" when the candidate list is empty or no candidate passes the
containment guard. -/
theorem c1_resolver_first_containment (needle : String) (ml : List (String × Nat))
    (cat : Catalog) (h : ∀ p ∈ ml, (dictLookup cat p.1).isSome = true) :
    find_matching_song needle ml cat =
      match ml.find? (fun p => containment_ok needle p.1) with
      | none => MatchResult.notFound
      | some p => MatchResult.found ((dictLookup cat p.1).getD default) := by
  rw [find_matching_song_eq_loop]
  exact match_loop_spec needle cat ml h

/-- Witness for C1: a passing second-ranked candidate is returned, a
non-containing top candidate is skipped, and the empty candidate list gives
"not found". -/
theorem c1_resolver_first_containment_witness :
    find_matching_song "song one"
        [("Other Tune", 97), ("Song One Live", 90)]
        [("Other Tune", ⟨"Other Tune", "id0"⟩),
         ("Song One Live", ⟨"Song One Live", "id1"⟩)] =
      MatchResult.found ⟨"Song One Live", "id1"⟩ ∧
    find_matching_song "song one" [] [("Song One", ⟨"Song One", "id1"⟩)] =
      MatchResult.notFound := by
  constructor
  · rw [c1_resolver_first_containment "song one"
      [("Other Tune", 97), ("Song One Live", 90)]
      [("Other Tune", ⟨"Other Tune", "id0"⟩),
       ("Song One Live", ⟨"Song One Live", "id1"⟩)] (by decide)]
    decide
  · rw [c1_resolver_first_containment "song one" []
      [("Song One", ⟨"Song One", "id1"⟩)] (by decide)]
    decide

/-! Section: C9: resolver is total when candidates come from the key set -/

/-- C9: when every scorer candidate is drawn from the catalog key set, the
lookup at an accepted candidate always succeeds: the resolver never raises
the missing-key error and returns either an item bound in the catalog or
"not found". -/
theorem c9_resolver_total (needle : String) (ml : List (String × Nat))
    (cat : Catalog) (h : ∀ p ∈ ml, (dictLookup cat p.1).isSome = true) :
    find_matching_song needle ml cat ≠ MatchResult.keyError ∧
    (find_matching_song needle ml cat = MatchResult.notFound ∨
      ∃ item k, dictLookup cat k = some item ∧
        find_matching_song needle ml cat = MatchResult.found item) := by
  rw [find_matching_song_eq_loop, match_loop_spec needle cat ml h]
  cases hf : ml.find? (fun p => containment_ok needle p.1) with
  | none => simp
  | some p =>
    obtain ⟨item, hitem⟩ :=
      Option.isSome_iff_exists.mp (h p (List.mem_of_find?_eq_some hf))
    exact ⟨by simp [hitem], Or.inr ⟨item, p.1, hitem, by simp [hitem]⟩⟩

/-- Witness for C9 on a concrete catalog and candidate list. -/
theorem c9_resolver_total_witness :
    find_matching_song "song" [("Song Two", 88)]
        [("Song Two", ⟨"Song Two", "id2"⟩)] ≠ MatchResult.keyError :=
  (c9_resolver_total "song" [("Song Two", 88)]
    [("Song Two", ⟨"Song Two", "id2"⟩)] (by decide)).1

/-! Section: Dict helper lemmas -/

lemma dictLookup_replace_ne (d : Catalog) (k : String) (v : SongItem) (k' : String)
    (hne : k' ≠ k) :
    dictLookup (d.map (fun p => if p.1 = k then (k, v) else p)) k' = dictLookup d k' := by
  induction d with
  | nil => rfl
  | cons p rest ih =>
    by_cases hp : p.1 = k
    · simp [dictLookup, hp, Ne.symm hne, ih]
    · simp [dictLookup, hp, ih]

lemma dictLookup_replace_eq (d : Catalog) (k : String) (v : SongItem)
    (hmem : ∃ p ∈ d, p.1 = k) :
    dictLookup (d.map (fun p => if p.1 = k then (k, v) else p)) k = some v := by
  induction d with
  | nil => simp at hmem
  | cons p rest ih =>
    by_cases hp : p.1 = k
    · simp [dictLookup, hp]
    · have hrest : ∃ q ∈ rest, q.1 = k := by
        rcases hmem with ⟨q, hq, hqk⟩
        rcases List.mem_cons.mp hq with rfl | hq2
        · exact absurd hqk hp
        · exact ⟨q, hq2, hqk⟩
      simp [dictLookup, hp, ih hrest]

lemma dictLookup_of_not_mem (d : Catalog) (k : String)
    (h : ¬ ∃ p ∈ d, p.1 = k) : dictLookup d k = none := by
  induction d with
  | nil => rfl
  | cons p rest ih =>
    have hp : p.1 ≠ k := fun he => h ⟨p, by simp, he⟩
    have hrest : ¬ ∃ q ∈ rest, q.1 = k := by
      rintro ⟨q, hq, hqk⟩
      exact h ⟨q, by simp [hq], hqk⟩
    simp [dictLookup, hp, ih hrest]

lemma dictLookup_append_one (d : Catalog) (k : String) (v : SongItem) (k' : String) :
    dictLookup (d ++ [(k, v)]) k' =
      match dictLookup d k' with
      | some w => some w
      | none => if k = k' then some v else none := by
  induction d with
  | nil => simp [dictLookup]
  | cons p rest ih =>
    by_cases hp : p.1 = k'
    · simp [dictLookup, hp]
    · simp [dictLookup, hp, ih]

lemma dictLookup_insert (d : Catalog) (k : String) (v : SongItem) (k' : String) :
    dictLookup (dictInsert d k v) k' = if k' = k then some v else dictLookup d k' := by
  unfold dictInsert
  by_cases hmem : ∃ p ∈ d, p.1 = k
  · rw [if_pos hmem]
    by_cases he : k' = k
    · subst he
      simp [dictLookup_replace_eq d k' v hmem]
    · simp [he, dictLookup_replace_ne d k v k' he]
  · rw [if_neg hmem, dictLookup_append_one]
    have hnone : dictLookup d k = none := dictLookup_of_not_mem d k hmem
    by_cases he : k' = k
    · subst he
      rw [hnone]
    · cases hl : dictLookup d k' with
      | some w => simp [he]
      | none => simp [he, Ne.symm he]

lemma buildDict_lookup (items : List SongItem) (d : Catalog) (k : String) :
    dictLookup
        (items.foldl (fun d it => dictInsert d (song_title_cleanup it.title) it) d) k =
      match items.reverse.find? (fun it => song_title_cleanup it.title == k) with
      | some it => some it
      | none => dictLookup d k := by
  induction items generalizing d with
  | nil => rfl
  | cons it rest ih =>
    rw [List.foldl_cons, ih, List.reverse_cons, List.find?_append]
    cases hf : rest.reverse.find? (fun it => song_title_cleanup it.title == k) with
    | some w => simp [Option.or]
    | none =>
      rw [dictLookup_insert]
      by_cases hk : song_title_cleanup it.title = k
      · have hkb : (song_title_cleanup it.title == k) = true := by simp [hk]
        simp [Option.or, hk, List.find?, hkb]
      · have hkb : (song_title_cleanup it.title == k) = false := by simp [hk]
        simp [Option.or, hk, Ne.symm hk, List.find?, hkb]

lemma keys_insert_mem (d : Catalog) (k : String) (v : SongItem) (k' : String) :
    k' ∈ (dictInsert d k v).map Prod.fst ↔ k' = k ∨ k' ∈ d.map Prod.fst := by
  unfold dictInsert
  by_cases hmem : ∃ p ∈ d, p.1 = k
  · rw [if_pos hmem]
    have hkeys : (d.map (fun p => if p.1 = k then (k, v) else p)).map Prod.fst =
        d.map Prod.fst := by
      rw [List.map_map]
      apply List.map_congr_left
      intro p hp
      by_cases hp1 : p.1 = k
      · simp [hp1]
      · simp [hp1]
    rw [hkeys]
    constructor
    · exact Or.inr
    · rintro (rfl | hm)
      · obtain ⟨p, hpd, hpk⟩ := hmem
        exact hpk ▸ List.mem_map_of_mem Prod.fst hpd
      · exact hm
  · rw [if_neg hmem]
    simp [List.map_append, or_comm]

lemma keys_fold_mem (items : List SongItem) (d : Catalog) (k : String) :
    k ∈ (items.foldl (fun d it => dictInsert d (song_title_cleanup it.title) it) d).map
        Prod.fst ↔
      k ∈ items.map (fun it => song_title_cleanup it.title) ∨ k ∈ d.map Prod.fst := by
  induction items generalizing d with
  | nil => simp
  | cons it rest ih =>
    rw [List.foldl_cons, ih, List.map_cons, List.mem_cons, keys_insert_mem]
    tauto

lemma foldl_append_eq_flatten (pls : List Playlist) (acc : List SongItem) :
    pls.foldl (fun acc p => acc ++ p.items) acc = acc ++ (pls.map Playlist.items).flatten := by
  induction pls generalizing acc with
  | nil => simp
  | cons p rest ih => simp [ih, List.append_assoc]

/-! Section: C8: later duplicates overwrite; keys are exactly the normalized titles -/

/-- C8: in the built catalog, the binding of a key is the **last** item of the
flattened item sequence whose normalized title equals it (later-seen
duplicates silently overwrite earlier ones), and the key set is exactly the
set of normalized titles of the flattened item sequence. -/
theorem c8_duplicate_overwrite (pls : List Playlist) (k : String) :
    dictLookup (collect_playlist_items pls) k =
      (pls.map Playlist.items).flatten.reverse.find?
        (fun it => song_title_cleanup it.title == k) ∧
    (k ∈ (collect_playlist_items pls).map Prod.fst ↔
      k ∈ (pls.map Playlist.items).flatten.map (fun it => song_title_cleanup it.title)) := by
  have hitems : collect_playlist_items pls =
      ((pls.map Playlist.items).flatten).foldl
        (fun d item => dictInsert d (song_title_cleanup item.title) item) [] := by
    unfold collect_playlist_items
    rw [foldl_append_eq_flatten]
    simp
  constructor
  · rw [hitems, buildDict_lookup]
    cases hf : (pls.map Playlist.items).flatten.reverse.find?
        (fun it => song_title_cleanup it.title == k) with
    | some w => rfl
    | none => rfl
  · rw [hitems, keys_fold_mem]
    simp

/-! Section: C4: master-playlist selection -/

lemma foldl_filter_eq (c : Playlist → Bool) (l : List Playlist) (acc : List Playlist) :
    l.foldl (fun acc p => if c p then acc ++ [p] else acc) acc = acc ++ l.filter c := by
  induction l generalizing acc with
  | nil => simp
  | cons p rest ih =>
    by_cases hp : c p
    · simp [hp, ih, List.filter_cons]
    · simp [hp, ih, List.filter_cons]

lemma find_master_eq_filter (pls : List Playlist) :
    find_master_playlists pls = pls.filter (fun p => pyIn "master" (py_lower p.name)) := by
  unfold find_master_playlists
  simpa using foldl_filter_eq (fun p => pyIn "master" (py_lower p.name)) pls []

/-- C4: the catalog builder selects exactly the playlists whose lowercased
name contains `"master"` — e.g. `"Master Rock"` and `"MASTER Jazz"` but not
`"Pop Hits"` — and when no playlist matches, the master song list is the
empty mapping rather than a failure. -/
theorem c4_master_marker :
    (∀ (pls : List Playlist) (p : Playlist),
        p ∈ find_master_playlists pls ↔
          p ∈ pls ∧ pyIn "master" (py_lower p.name) = true) ∧
    find_master_playlists
        [⟨"Master Rock", []⟩, ⟨"MASTER Jazz", []⟩, ⟨"Pop Hits", []⟩] =
      [⟨"Master Rock", []⟩, ⟨"MASTER Jazz", []⟩] ∧
    (∀ pls : List Playlist,
      (∀ p ∈ pls, pyIn "master" (py_lower p.name) = false) →
        get_master_song_list pls = []) := by
  refine ⟨?_, by decide, ?_⟩
  · intro pls p
    rw [find_master_eq_filter]
    simp [List.mem_filter]
  · intro pls h
    have hnil : find_master_playlists pls = [] := by
      rw [find_master_eq_filter]
      exact List.filter_eq_nil_iff.mpr (fun p hp => by simp [h p hp])
    simp [get_master_song_list, hnil, collect_playlist_items]

/-- Witness for C4: with only a non-matching playlist the catalog is empty. -/
theorem c4_master_marker_witness :
    get_master_song_list [⟨"Pop Hits", []⟩] = [] :=
  c4_master_marker.2.2 [⟨"Pop Hits", []⟩] (by decide)

/-! Section: C5: input-file parsing -/

/-- C5: reading the input file strips each line, drops blank or
whitespace-only lines, and discards an optional `" - "` artist suffix before
normalization; the four sample lines yield exactly the two titles
`"A Song"`, `"B Song"` in order. -/
theorem c5_input_parsing :
    read_song_list_from_file ["A Song - Artist1", "", "  ", "B Song - Artist2"] =
      ["A Song", "B Song"] ∧
    (∀ (pre : List String) (l : String) (post : List String), py_strip l = "" →
      read_song_list_from_file (pre ++ l :: post) = read_song_list_from_file (pre ++ post)) := by
  constructor
  · decide
  · intro pre l post h
    simp only [read_song_list_from_file, List.filter_append, List.filter_cons, h]
    simp

/-- Witness for C5: a whitespace-only line is dropped. -/
theorem c5_input_parsing_witness :
    read_song_list_from_file (["A Song - Artist1"] ++ "  " :: []) =
      read_song_list_from_file (["A Song - Artist1"] ++ []) :=
  c5_input_parsing.2 ["A Song - Artist1"] "  " [] (by decide)

/-! Section: Synchronizer helper lemma -/

lemma process_songs_spec (dry : Bool) (cat : Catalog)
    (mf : String → List (String × Nat)) (songs : List String)
    (h : ∀ n, ∀ p ∈ mf n, (dictLookup cat p.1).isSome = true) :
    process_songs dry cat mf songs = Except.ok
      ((if dry then [] else songs.filterMap (fun n =>
          ((mf n).find? (fun p => containment_ok n p.1)).bind
            (fun p => (dictLookup cat p.1).map SongItem.id))),
        songs.countP (fun n =>
          ((mf n).find? (fun p => containment_ok n p.1)).isSome)) := by
  induction songs with
  | nil => cases dry <;> rfl
  | cons n rest ih =>
    have hchar : find_matching_song n (mf n) cat =
        (match (mf n).find? (fun p => containment_ok n p.1) with
         | none => MatchResult.notFound
         | some p => MatchResult.found ((dictLookup cat p.1).getD default)) := by
      rw [find_matching_song_eq_loop]
      exact match_loop_spec n cat (mf n) (h n)
    cases hf : (mf n).find? (fun p => containment_ok n p.1) with
    | none =>
      have hnotf : find_matching_song n (mf n) cat = MatchResult.notFound := by
        rw [hchar, hf]
      simp [process_songs, hnotf, ih, List.filterMap_cons, List.countP_cons, hf]
    | some p =>
      obtain ⟨item, hitem⟩ :=
        Option.isSome_iff_exists.mp (h n p (List.mem_of_find?_eq_some hf))
      have hfound : find_matching_song n (mf n) cat = MatchResult.found item := by
        rw [hchar, hf]
        simp [hitem]
      cases dry with
      | false =>
        simp [process_songs, hfound, ih, List.filterMap_cons, List.countP_cons, hf, hitem]
      | true =>
        simp [process_songs, hfound, ih, List.filterMap_cons, List.countP_cons, hf, hitem]

/-! Section: C6: one batch-add with the resolved ids in input order -/

/-- C6: in a normal run where every scorer candidate is a catalog key, the
synchronizer submits exactly one batch-add carrying exactly the native ids
of the resolved titles in input order; unresolved titles are skipped
non-fatally, and no batch-add happens when nothing resolved. -/
theorem c6_single_batch_add (playlistName : String) (svcPlaylistId : Nat)
    (cat : Catalog) (mf : String → List (String × Nat)) (songs : List String)
    (h : ∀ n, ∀ p ∈ mf n, (dictLookup cat p.1).isSome = true) :
    main_model false playlistName svcPlaylistId cat mf songs = Except.ok
      { findOrCreateCalls := [playlistName],
        batchAddCalls :=
          if (songs.filterMap (fun n =>
              ((mf n).find? (fun p => containment_ok n p.1)).bind
                (fun p => (dictLookup cat p.1).map SongItem.id))).isEmpty then []
          else [(svcPlaylistId,
            songs.filterMap (fun n =>
              ((mf n).find? (fun p => containment_ok n p.1)).bind
                (fun p => (dictLookup cat p.1).map SongItem.id)))],
        resolvedCount := songs.countP (fun n =>
          ((mf n).find? (fun p => containment_ok n p.1)).isSome) } := by
  rw [main_model, process_songs_spec false cat mf songs h]
  simp [get_playlist_calls, get_playlist_id]

/-- Witness for C6: two resolvable titles and one unresolvable one yield one
batch-add with the two ids in input order. -/
theorem c6_single_batch_add_witness :
    main_model false "My Playlist" 7
        [("Song One", ⟨"Song One", "id1"⟩), ("Song Two", ⟨"Song Two", "id2"⟩)]
        (fun _ => [("Song One", 90), ("Song Two", 80)])
        ["Song One", "Zzz", "Song Two"] = Except.ok
      { findOrCreateCalls := ["My Playlist"],
        batchAddCalls := [(7, ["id1", "id2"])],
        resolvedCount := 2 } := by
  rw [c6_single_batch_add "My Playlist" 7
    [("Song One", ⟨"Song One", "id1"⟩), ("Song Two", ⟨"Song Two", "id2"⟩)]
    (fun _ => [("Song One", 90), ("Song Two", 80)])
    ["Song One", "Zzz", "Song Two"]
    (by
      intro n p hp
      simp at hp
      rcases hp with rfl | rfl <;> decide)]
  exact congrArg Except.ok (by decide)

/-! Section: C7: dry-run makes no provider calls -/

/-- C7: in dry-run mode the synchronizer never calls batch-add and never
creates or looks up the target playlist (the placeholder id 1 stands in),
the report counts zero added ids, and every resolvable title is still
counted as resolved. -/
theorem c7_dry_run (playlistName : String) (svcPlaylistId : Nat) (cat : Catalog)
    (mf : String → List (String × Nat)) (songs : List String)
    (h : ∀ n, ∀ p ∈ mf n, (dictLookup cat p.1).isSome = true) :
    main_model true playlistName svcPlaylistId cat mf songs = Except.ok
      { findOrCreateCalls := [], batchAddCalls := [],
        resolvedCount := songs.countP (fun n =>
          ((mf n).find? (fun p => containment_ok n p.1)).isSome) } ∧
    (∀ r, main_model true playlistName svcPlaylistId cat mf songs = Except.ok r →
      addedCount r = 0) ∧
    get_playlist_id true svcPlaylistId = 1 := by
  have heq : main_model true playlistName svcPlaylistId cat mf songs = Except.ok
      { findOrCreateCalls := [], batchAddCalls := [],
        resolvedCount := songs.countP (fun n =>
          ((mf n).find? (fun p => containment_ok n p.1)).isSome) } := by
    rw [main_model, process_songs_spec true cat mf songs h]
    simp [get_playlist_calls]
  refine ⟨heq, ?_, rfl⟩
  intro r hr
  rw [heq] at hr
  injection hr with hinj
  subst hinj
  rfl

/-- Witness for C7: a dry run over two resolvable titles reports two
resolved titles, zero additions and no provider calls. -/
theorem c7_dry_run_witness :
    main_model true "My Playlist" 7
        [("Song One", ⟨"Song One", "id1"⟩), ("Song Two", ⟨"Song Two", "id2"⟩)]
        (fun _ => [("Song One", 90), ("Song Two", 80)])
        ["Song One", "Song Two"] = Except.ok
      { findOrCreateCalls := [], batchAddCalls := [], resolvedCount := 2 } := by
  rw [(c7_dry_run "My Playlist" 7
    [("Song One", ⟨"Song One", "id1"⟩), ("Song Two", ⟨"Song Two", "id2"⟩)]
    (fun _ => [("Song One", 90), ("Song Two", 80)])
    ["Song One", "Song Two"]
    (by
      intro n p hp
      simp at hp
      rcases hp with rfl | rfl <;> decide)).1]
  exact congrArg Except.ok (by decide)

/-! Section: C10: the empty needle matches the top-ranked candidate -/

/-- C10: input parsing can produce an empty title (a line of pure noise such
as "()"), and resolving the empty title never yields "not found" on a
non-empty candidate list drawn from the catalog: the empty needle is
contained in every candidate, so the scorer's top-ranked candidate's item is
returned and, in a normal run, its id is batch-added. -/
theorem c10_empty_needle (ml : List (String × Nat)) (cat : Catalog)
    (p0 : String × Nat) (item : SongItem) (playlistName : String)
    (svcPlaylistId : Nat) (hhead : ml.head? = some p0)
    (hitem : dictLookup cat p0.1 = some item) :
    find_matching_song "" ml cat = MatchResult.found item ∧
    read_song_list_from_file ["()"] = [""] ∧
    main_model false playlistName svcPlaylistId cat (fun _ => ml) [""] =
      Except.ok { findOrCreateCalls := [playlistName],
                  batchAddCalls := [(svcPlaylistId, [item.id])],
                  resolvedCount := 1 } := by
  cases ml with
  | nil => simp at hhead
  | cons m rest =>
    have hm : p0 = m := by simpa using hhead.symm
    subst hm
    have hempty : containment_ok "" p0.1 = true := by
      simp [containment_ok, pyIn, py_lower, List.nil_infix]
    have hfound : find_matching_song "" (p0 :: rest) cat = MatchResult.found item := by
      rw [find_matching_song_eq_loop]
      simp [match_loop, hempty, hitem]
    refine ⟨hfound, by decide, ?_⟩
    simp [main_model, process_songs, hfound, get_playlist_calls, get_playlist_id]

/-- Witness for C10 on a concrete two-entry catalog. -/
theorem c10_empty_needle_witness :
    find_matching_song "" [("Song Two", 88), ("Song One", 70)]
        [("Song One", ⟨"Song One", "id1"⟩), ("Song Two", ⟨"Song Two", "id2"⟩)] =
      MatchResult.found ⟨"Song Two", "id2"⟩ :=
  (c10_empty_needle [("Song Two", 88), ("Song One", 70)]
    [("Song One", ⟨"Song One", "id1"⟩), ("Song Two", ⟨"Song Two", "id2"⟩)]
    ("Song Two", 88) ⟨"Song Two", "id2"⟩ "P" 7 (by decide) (by decide)).1
